import Mathlib

/-!
Shallow embedding of the peer-backend group-chat server (`src/main.py`)
and proofs about its claimed behaviour.

MongoDB collections are modelled as lists of documents in insertion order
(`find_one` is first-match lookup, `update_one` rewrites the first matching
document, `insert_one` appends).  Python dicts (`apikeys`,
`open_feed_connections`) are association lists in insertion order, with
`d[k] = v` replacing in place.  Python strings are `String` where only
equality and length matter, and `List Char` for message content, where
`str.strip` matters.  Handlers that can raise an uncaught Python exception
return `Except PyError`.
-/

namespace Peer

/-- Python runtime errors the handlers can raise when left unhandled:
`keyError` for a missing dict key, `typeError` for subscripting `None` or
slicing a list with a `str` index, `attributeError` for attribute access
on `None`. -/
inductive PyError where
  | keyError
  | typeError
  | attributeError
deriving DecidableEq

/-- A message document as stored in a chat's `message_history` array by the
`/msg` route: author id, content characters (stored stripped), and the
caller-supplied `timestamp` header (an HTTP header, hence a string). -/
structure Message where
  author : String
  content : List Char
  timestamp : String
deriving DecidableEq

/-- A document of the `users` collection.  `chats` is `none` when the
document has no `"chats"` key (users get one only when first added to a
chat).  The bcrypt hash stored under `pswd` is kept opaque. -/
structure UserDoc where
  id : String
  username : String
  discriminator : String
  pswd : String
  display_name : Option String
  chats : Option (List String)
deriving DecidableEq

/-- A document of the `chats` collection.  `message_history` is `none` when
the document has no `"message_history"` key (the `/msg` route guards for
that; `create_chat` always writes an empty array). -/
structure ChatDoc where
  id : String
  name : String
  owner : String
  members : List String
  message_history : Option (List Message)
deriving DecidableEq

/-- The two MongoDB collections used by the server. -/
structure DB where
  users : List UserDoc
  chats : List ChatDoc
deriving DecidableEq

/-- In-process server state: the database, the `apikeys` dict mapping an
API key to the authenticated user's `_id` (the stored `last_req` field is
never read by any route, so it is not modelled), and the
`open_feed_connections` dict mapping a chat id to a dict from user id to
that user's live websocket, identified here by a numeric handle. -/
structure ServerState where
  db : DB
  apikeys : List (String × String)
  feeds : List (String × List (String × Nat))
deriving DecidableEq

/-- First-match lookup in a Python dict modelled as an association list. -/
def dictLookup (k : String) : List (String × α) → Option α
  | [] => none
  | (k', v) :: rest => if k' = k then some v else dictLookup k rest

/-- `d[k] = v` on a Python dict: replaces the value of an existing key in
place, otherwise appends the new binding. -/
def dictSet (k : String) (v : α) : List (String × α) → List (String × α)
  | [] => [(k, v)]
  | (k', v') :: rest => if k' = k then (k, v) :: rest else (k', v') :: dictSet k v rest

/-- MongoDB `update_one(filter, $set)`: rewrite the first document matching
the filter, leaving every other document in place. -/
def updateFirst (p : α → Bool) (f : α → α) : List α → List α
  | [] => []
  | a :: rest => if p a then f a :: rest else a :: updateFirst p f rest

/-- The ASCII whitespace characters removed by Python's `str.strip()`. -/
def isPySpace (c : Char) : Bool :=
  c == ' ' || c == '\t' || c == '\n' || c == '\x0b' || c == '\x0c' || c == '\r'

/-- Python `content.strip()`: drop leading and trailing whitespace. -/
def pyStrip (s : List Char) : List Char :=
  ((s.dropWhile isPySpace).reverse.dropWhile isPySpace).reverse

/-- A user's membership list, reading a missing `"chats"` key as empty. -/
def UserDoc.chatList (u : UserDoc) : List String := u.chats.getD []

/-- `is_user_available` (main.py:44): scan the whole `users` collection,
skipping the sentinel document with `_id == "a"`; the name is taken when
some user has the same `username#discriminator` or the same id. -/
def is_user_available (users : List UserDoc) (fullname : String) (newId : String) : Bool :=
  users.all fun u =>
    u.id == "a" || !((u.username ++ "#" ++ u.discriminator == fullname) || u.id == newId)

/-- The character whitelist of `/register_user` (main.py:122).  `\x7b`,
`\x7d` and `\x60` are the literal brace and backtick characters. -/
def allowed_chars : List Char :=
  "ABCDEFGHIJKLMNOPQRSTUVWXYZabcdefghijklmnopqrstuvwxyz1234567890-_=+.>,<?!^&*()[]\x7b\x7d|~\x60%$:;".toList

/-- Result of `/register_user`: either an error response or the new id and
full `username#discriminator`. -/
inductive RegOut where
  | failure (code : String)
  | success (id : String) (user : String)
deriving DecidableEq

/-- The second half of the `TooLong` test of `/register_user`:
`display_name != None and len(display_name) > 30`. -/
def displayTooLong : Option String → Bool
  | some d => decide (d.length > 30)
  | none => false

/-- `/register_user` (main.py:88).  `error` starts empty and is overwritten
by each applicable check in program order: the length `if`/`elif`, then the
availability scan, then the character loop; the last write wins.  `newId`
stands for the freshly generated `uuid4().hex`.  The stored
`display_name` keeps the `Option` (the code stringifies it). -/
def register_user (db : DB) (username discriminator pswd : String)
    (display_name : Option String) (newId : String) : RegOut × DB :=
  let error1 :=
    if username.length > 20 ∨ displayTooLong display_name then "TooLong"
    else if username = "" then "UsernameRequired"
    else ""
  let error2 :=
    if !is_user_available db.users (username ++ "#" ++ discriminator) newId then "UsernameTaken"
    else error1
  let error3 :=
    if username.toList.any (fun c => !allowed_chars.contains c) then "InvalidChars"
    else error2
  if error3 ≠ "" then (.failure error3, db)
  else (.success newId (username ++ "#" ++ discriminator),
    { db with users := db.users ++
        [{ id := newId, username := username, discriminator := discriminator,
           pswd := pswd, display_name := display_name, chats := none }] })

/-- `/create_chat` (main.py:134).  An unknown API key raises `KeyError`;
a missing owner document raises `AttributeError` (`None.keys()`).  The
`while not is_chat_id_available(...)` loop never iterates: the unawaited
coroutine is always truthy, so the freshly generated uuid (`newId`) is
used as-is.  The owner's `chats` array gains the new id and the new chat
document is inserted with `members = [owner]` and an empty history. -/
def create_chat (st : ServerState) (chat_name owner_apikey newId : String) :
    Except PyError (String × ServerState) :=
  match dictLookup owner_apikey st.apikeys with
  | none => .error .keyError
  | some owner =>
    match st.db.users.find? (fun u => u.id == owner) with
    | none => .error .attributeError
    | some userdata =>
      let users' := updateFirst (fun u => u.id == owner)
        (fun u => { u with chats := some (userdata.chatList ++ [newId]) }) st.db.users
      let chats' := st.db.chats ++
        [{ id := newId, name := chat_name, owner := owner, members := [owner],
           message_history := some [] }]
      .ok (newId, { st with db := { users := users', chats := chats' } })

/-- `/add_to_chat` (main.py:161).  An unknown API key raises `KeyError`; a
missing chat raises `TypeError` (`None["members"]`).  Error order is that
of the code: `NoInvitePerms` when the inviter is not a member or not the
owner, then `UserAlreadyInChat`, then `UserNotFound`; on success the chat
id is appended to the invitee's `chats` and the invitee to `members`. -/
def add_to_chat (st : ServerState) (inviter_apikey invitee chat_id : String) :
    Except PyError (String × ServerState) :=
  match dictLookup inviter_apikey st.apikeys with
  | none => .error .keyError
  | some inviter =>
    match st.db.chats.find? (fun c => c.id == chat_id) with
    | none => .error .typeError
    | some chatdata =>
      if inviter ∉ chatdata.members ∨ inviter ≠ chatdata.owner then .ok ("NoInvitePerms", st)
      else if invitee ∈ chatdata.members then .ok ("UserAlreadyInChat", st)
      else
        match st.db.users.find? (fun u => u.id == invitee) with
        | none => .ok ("UserNotFound", st)
        | some userdata =>
          let users' := updateFirst (fun u => u.id == invitee)
            (fun u => { u with chats := some (userdata.chatList ++ [chat_id]) }) st.db.users
          let chats' := updateFirst (fun c => c.id == chat_id)
            (fun c => { c with members := chatdata.members ++ [invitee] }) st.db.chats
          .ok ("", { st with db := { users := users', chats := chats' } })

/-- `/remove_from_chat` (main.py:201).  An unknown API key raises
`KeyError`.  The guard `chat not in userdata["chats"] or removee not in
chatdata["members"]` evaluates left to right: a missing removee document
raises `TypeError`, a removee document without a `"chats"` key raises
`KeyError`, and `chatdata["members"]` (raising `TypeError` on a missing
chat) is reached only when the chat is in the removee's list.  On success
`list.remove` deletes the first occurrence on both sides. -/
def remove_from_chat (st : ServerState) (remover_apikey removee chat_id : String) :
    Except PyError (String × ServerState) :=
  match dictLookup remover_apikey st.apikeys with
  | none => .error .keyError
  | some remover =>
    match st.db.users.find? (fun u => u.id == removee) with
    | none => .error .typeError
    | some userdata =>
      match userdata.chats with
      | none => .error .keyError
      | some uchats =>
        if chat_id ∉ uchats then .ok ("UserNotInChat", st)
        else
          match st.db.chats.find? (fun c => c.id == chat_id) with
          | none => .error .typeError
          | some chatdata =>
            if removee ∉ chatdata.members then .ok ("UserNotInChat", st)
            else if remover ≠ chatdata.owner then .ok ("NoRemovePerms", st)
            else
              let users' := updateFirst (fun u => u.id == removee)
                (fun u => { u with chats := some (uchats.erase chat_id) }) st.db.users
              let chats' := updateFirst (fun c => c.id == chat_id)
                (fun c => { c with members := chatdata.members.erase removee }) st.db.chats
              .ok ("", { st with db := { users := users', chats := chats' } })

/-- One `livemsg` frame as pushed by `/msg` (main.py:300): author id, the
author's looked-up username and discriminator, the timestamp header and
the message content. -/
structure Frame where
  author : String
  username : String
  discriminator : String
  timestamp : String
  content : List Char
deriving DecidableEq

/-- Observable outcome of a `/msg` call: the `error` field of the JSON
response and the list of `(websocket, frame)` pushes that succeeded. -/
structure MsgOut where
  error : String
  delivered : List (Nat × Frame)
deriving DecidableEq

/-- `/msg` (main.py:256).  An unknown API key raises `KeyError`; a missing
chat raises `TypeError` at `chat["members"]`.  The content check is
`len(content) > 500 or content.strip() == ""` — the length test runs on
the raw content, the emptiness test on the stripped content.  The stored
message contains `content.strip()`; each fan-out frame carries the raw
`content`.  Every send sits in a `try`/`except` that only prints, so a
broken transport (`broken`) or a failed author lookup inside the frame
construction skips that connection and leaves the registry untouched. -/
def msg (st : ServerState) (chat_id author_apikey timestamp : String)
    (content : List Char) (broken : Nat → Bool) :
    Except PyError (MsgOut × ServerState) :=
  match dictLookup author_apikey st.apikeys with
  | none => .error .keyError
  | some author =>
    match st.db.chats.find? (fun c => c.id == chat_id) with
    | none => .error .typeError
    | some chat =>
      if author ∉ chat.members then .ok ({ error := "UserNotInChat", delivered := [] }, st)
      else if content.length > 500 ∨ pyStrip content = [] then
        .ok ({ error := "IllegalMessageContent", delivered := [] }, st)
      else
        let hist' := chat.message_history.getD [] ++
          [{ author := author, content := pyStrip content, timestamp := timestamp }]
        let chats' := updateFirst (fun c => c.id == chat_id)
          (fun c => { c with message_history := some hist' }) st.db.chats
        let conns := (dictLookup chat_id st.feeds).getD []
        let delivered := conns.filterMap (fun cn =>
          match st.db.users.find? (fun u => u.id == author) with
          | none => none
          | some udata =>
            if broken cn.2 then none
            else some (cn.2,
              { author := author, username := udata.username,
                discriminator := udata.discriminator, timestamp := timestamp,
                content := content }))
        .ok ({ error := "", delivered := delivered },
          { st with db := { st.db with chats := chats' } })

/-- The `"auth"` packet arm of `/chatfeed/<id>` (main.py:330): resolve the
API key (`KeyError` when unknown), reject a non-member with
`UserNotInChat` (a missing chat raises `TypeError` at
`chatdata["members"]`), and otherwise store the websocket under
`open_feed_connections[id][user]`, replacing any previous binding. -/
def chatfeed_auth (st : ServerState) (chat_id apikey : String) (ws : Nat) :
    Except PyError (String × ServerState) :=
  match dictLookup apikey st.apikeys with
  | none => .error .keyError
  | some user =>
    match st.db.chats.find? (fun c => c.id == chat_id) with
    | none => .error .typeError
    | some chatdata =>
      if user ∉ chatdata.members then .ok ("UserNotInChat", st)
      else
        let chatConns := (dictLookup chat_id st.feeds).getD []
        .ok ("", { st with feeds := dictSet chat_id (dictSet user ws chatConns) st.feeds })

/-- Response of `/chatfetch/<id>`. -/
structure FetchOut where
  error : String
  messages : List Message
deriving DecidableEq

/-- `/chatfetch/<id>` (main.py:407).  The `limit` header, when present, is
the raw header *string*; `message_history[:limit]` then raises `TypeError`
(slice indices must be integers).  Without the header the slice bound is
the integer literal 50.  A chat without a `"message_history"` key would
raise `KeyError`.  An unknown chat id answers `ChatNotFound`. -/
def chatfetch (st : ServerState) (id : String) (limit : Option String) :
    Except PyError FetchOut :=
  match st.db.chats.find? (fun c => c.id == id) with
  | none => .ok { error := "ChatNotFound", messages := [] }
  | some chatdata =>
    match chatdata.message_history with
    | none => .error .keyError
    | some hist =>
      match limit with
      | some _ => .error .typeError
      | none => .ok { error := "", messages := hist.take 50 }

/-- Invariant of §8 of the design: every chat's owner is a member. -/
def ownerInMembers (db : DB) : Prop :=
  ∀ c ∈ db.chats, c.owner ∈ c.members

/-- Invariant of §8 of the design: membership is kept symmetrically on the
user document and the chat document. -/
def membershipIff (db : DB) : Prop :=
  ∀ u ∈ db.users, ∀ c ∈ db.chats, (c.id ∈ u.chatList ↔ u.id ∈ c.members)

/-- Well-formed database: document ids are unique per collection (MongoDB
`_id` is a unique index), the membership lists hold no duplicates (the
handlers only append after a membership test), and membership is
symmetric. -/
def DBWf (db : DB) : Prop :=
  (db.users.map (fun u => u.id)).Nodup ∧
  (db.chats.map (fun c => c.id)).Nodup ∧
  (∀ u ∈ db.users, u.chatList.Nodup) ∧
  (∀ c ∈ db.chats, c.members.Nodup) ∧
  membershipIff db

instance (db : DB) : Decidable (ownerInMembers db) :=
  inferInstanceAs (Decidable (∀ c ∈ db.chats, c.owner ∈ c.members))

instance (db : DB) : Decidable (membershipIff db) :=
  inferInstanceAs
    (Decidable (∀ u ∈ db.users, ∀ c ∈ db.chats, (c.id ∈ u.chatList ↔ u.id ∈ c.members)))

instance (db : DB) : Decidable (DBWf db) :=
  inferInstanceAs (Decidable ((db.users.map (fun u : UserDoc => u.id)).Nodup ∧
    (db.chats.map (fun c : ChatDoc => c.id)).Nodup ∧
    (∀ u ∈ db.users, u.chatList.Nodup) ∧
    (∀ c ∈ db.chats, c.members.Nodup) ∧
    membershipIff db))

/-! ### Helper lemmas about the dict / collection primitives -/

theorem mem_updateFirst (p : α → Bool) (f : α → α) (l : List α) (b : α)
    (hb : b ∈ updateFirst p f l) :
    b ∈ l ∨ ∃ a, l.find? p = some a ∧ b = f a := by
  induction l with
  | nil => cases hb
  | cons a t ih =>
    by_cases hp : p a
    · rw [updateFirst, if_pos hp] at hb
      rcases List.mem_cons.mp hb with h | h
      · exact Or.inr ⟨a, List.find?_cons_of_pos _ hp, h⟩
      · exact Or.inl (List.mem_cons_of_mem _ h)
    · rw [updateFirst, if_neg hp] at hb
      rcases List.mem_cons.mp hb with h | h
      · exact Or.inl (h ▸ List.mem_cons_self a t)
      · rcases ih h with h' | ⟨a', ha', hb'⟩
        · exact Or.inl (List.mem_cons_of_mem _ h')
        · exact Or.inr ⟨a', by rw [List.find?_cons_of_neg _ hp]; exact ha', hb'⟩

theorem map_update_id (key : α → String) (f : α → α) (x : String) (l : List α)
    (h : x ∉ l.map key) :
    l.map (fun a => if key a = x then f a else a) = l := by
  induction l with
  | nil => rfl
  | cons a t ih =>
    simp only [List.map_cons, List.mem_cons, not_or] at h ⊢
    rw [if_neg (fun hh => h.1 hh.symm), ih h.2]

/-- With unique keys, rewriting the first key match rewrites exactly the
key matches. -/
theorem updateFirst_eq_map (key : α → String) (f : α → α) (x : String) (l : List α)
    (h : (l.map key).Nodup) :
    updateFirst (fun a => key a == x) f l = l.map (fun a => if key a = x then f a else a) := by
  induction l with
  | nil => rfl
  | cons a t ih =>
    simp only [List.map_cons, List.nodup_cons] at h
    by_cases hx : key a = x
    · rw [updateFirst, if_pos (beq_iff_eq.mpr hx), List.map_cons, if_pos hx,
        map_update_id key f x t (hx ▸ h.1)]
    · rw [updateFirst, if_neg (by simp [hx]), List.map_cons, if_neg hx, ih h.2]

/-- When the rewrite preserves the search key, `find?` after `updateFirst`
returns the rewritten first match. -/
theorem find?_updateFirst (p : α → Bool) (f : α → α) (l : List α)
    (hpf : ∀ a, p (f a) = p a) :
    (updateFirst p f l).find? p = (l.find? p).map f := by
  induction l with
  | nil => rfl
  | cons a t ih =>
    by_cases hp : p a
    · rw [updateFirst, if_pos hp, List.find?_cons_of_pos _ (by rw [hpf]; exact hp),
        List.find?_cons_of_pos _ hp, Option.map_some']
    · rw [updateFirst, if_neg hp, List.find?_cons_of_neg _ hp, List.find?_cons_of_neg _ hp, ih]

theorem nodup_key_eq (key : α → String) (l : List α) (h : (l.map key).Nodup)
    (a b : α) (ha : a ∈ l) (hb : b ∈ l) (hk : key a = key b) : a = b := by
  induction l with
  | nil => cases ha
  | cons c t ih =>
    simp only [List.map_cons, List.nodup_cons] at h
    rcases List.mem_cons.mp ha with rfl | ha' <;> rcases List.mem_cons.mp hb with rfl | hb'
    · rfl
    · exact absurd (hk ▸ List.mem_map_of_mem key hb') h.1
    · exact absurd (hk ▸ List.mem_map_of_mem key ha') h.1
    · exact ih h.2 ha' hb'

theorem dictLookup_dictSet_self (k : String) (v : α) (m : List (String × α)) :
    dictLookup k (dictSet k v m) = some v := by
  induction m with
  | nil => simp [dictSet, dictLookup]
  | cons p rest ih =>
    obtain ⟨k', v'⟩ := p
    by_cases h : k' = k
    · simp [dictSet, dictLookup, h]
    · simp [dictSet, dictLookup, h, ih]

theorem keys_dictSet (k : String) (v : α) (m : List (String × α)) :
    (dictSet k v m).map Prod.fst =
      if k ∈ m.map Prod.fst then m.map Prod.fst else m.map Prod.fst ++ [k] := by
  induction m with
  | nil => simp [dictSet]
  | cons p rest ih =>
    obtain ⟨k', v'⟩ := p
    by_cases h : k' = k
    · subst h
      simp [dictSet]
    · simp only [dictSet, if_neg h, List.map_cons]
      by_cases hk : k ∈ rest.map Prod.fst
      · rw [ih, if_pos hk, if_pos (by simp [hk])]
      · rw [ih, if_neg hk, if_neg (by simp [hk, Ne.symm h])]
        simp

theorem nodup_keys_dictSet (k : String) (v : α) (m : List (String × α))
    (h : (m.map Prod.fst).Nodup) : ((dictSet k v m).map Prod.fst).Nodup := by
  rw [keys_dictSet]
  by_cases hk : k ∈ m.map Prod.fst
  · rwa [if_pos hk]
  · rw [if_neg hk]
    simp [List.nodup_append, h, hk]

theorem mem_dictSet_nodup (k : String) (v : α) (m : List (String × α))
    (q : String × α) (hnk : (m.map Prod.fst).Nodup) (hq : q ∈ dictSet k v m) :
    q = (k, v) ∨ (q ∈ m ∧ q.1 ≠ k) := by
  induction m with
  | nil => simp only [dictSet, List.mem_singleton] at hq; exact Or.inl hq
  | cons p rest ih =>
    obtain ⟨k', v'⟩ := p
    simp only [List.map_cons, List.nodup_cons] at hnk
    by_cases h : k' = k
    · subst h
      rw [dictSet, if_pos rfl] at hq
      rcases List.mem_cons.mp hq with rfl | hq'
      · exact Or.inl rfl
      · refine Or.inr ⟨List.mem_cons_of_mem _ hq', fun hqk => hnk.1 ?_⟩
        exact hqk ▸ List.mem_map_of_mem Prod.fst hq'
    · rw [dictSet, if_neg h] at hq
      rcases List.mem_cons.mp hq with rfl | hq'
      · exact Or.inr ⟨List.mem_cons_self _ _, h⟩
      · rcases ih hnk.2 hq' with h' | ⟨h₁, h₂⟩
        · exact Or.inl h'
        · exact Or.inr ⟨List.mem_cons_of_mem _ h₁, h₂⟩

theorem find?_key_facts (key : α → String) (x : String) (l : List α) (a : α)
    (h : l.find? (fun b => key b == x) = some a) : a ∈ l ∧ key a = x := by
  have hp := List.find?_some h
  exact ⟨List.mem_of_find?_eq_some h, by simpa using hp⟩

/-! ### Sample documents and states used to instantiate the theorems -/

def annDoc : UserDoc :=
  { id := "u1", username := "ann", discriminator := "0001", pswd := "pw",
    display_name := none, chats := some ["c1"] }

def bobDoc : UserDoc :=
  { id := "u2", username := "bob", discriminator := "0002", pswd := "pw",
    display_name := none, chats := some ["c1"] }

def chatDoc1 : ChatDoc :=
  { id := "c1", name := "General", owner := "u1", members := ["u1", "u2"],
    message_history := some [] }

/-- Ann owns chat `c1`; Bob is a member; both hold API keys; no feeds. -/
def baseState : ServerState :=
  { db := { users := [annDoc, bobDoc], chats := [chatDoc1] },
    apikeys := [("k1", "u1"), ("k2", "u2")], feeds := [] }

/-- A registered user who is in no chat (no `"chats"` key yet). -/
def cadDoc : UserDoc :=
  { id := "u3", username := "cad", discriminator := "0003", pswd := "pw",
    display_name := none, chats := none }

/-- `baseState` plus the chatless user Cad. -/
def triState : ServerState :=
  { baseState with db := { baseState.db with users := [annDoc, bobDoc, cadDoc] } }

/-- `baseState` with one live feed connection: Ann's websocket 7 on `c1`. -/
def feedState : ServerState :=
  { baseState with feeds := [("c1", [("u1", 7)])] }

/-- `baseState` with two live feed connections on `c1`: Ann's websocket 1
and Bob's websocket 2. -/
def feed2State : ServerState :=
  { baseState with feeds := [("c1", [("u1", 1), ("u2", 2)])] }

/-- The chat of `baseState` with one stored message. -/
def fetchState : ServerState :=
  { baseState with db := { baseState.db with chats := [{ chatDoc1 with
      message_history := some [{ author := "u1", content := ['h', 'i'], timestamp := "3" }] }] } }

/-- A `users` collection already holding the handle `" #0009"`, so that a
second registration of it is both unavailable and invalid. -/
def regDb : DB :=
  { users := [{ id := "u5", username := " ", discriminator := "0009", pswd := "pw",
                display_name := none, chats := none }], chats := [] }

/-- Outcome of posting `" hi "` to `feedState`: the call succeeds and the
single frame pushed to websocket 7 carries the raw, untrimmed content. -/
def c3Out : MsgOut :=
  { error := "",
    delivered := [(7, { author := "u1", username := "ann", discriminator := "0001",
                        timestamp := "5", content := [' ', 'h', 'i', ' '] })] }

/-- State after posting `" hi "` to `feedState`: the stored message holds
the trimmed content `"hi"`. -/
def c3St : ServerState :=
  { feedState with db := { feedState.db with chats := [{ chatDoc1 with
      message_history := some [{ author := "u1", content := ['h', 'i'], timestamp := "5" }] }] } }

/-- Outcome of posting `"yo"` to `feed2State` while websocket 1 is broken:
only websocket 2 receives a frame. -/
def c4Out : MsgOut :=
  { error := "",
    delivered := [(2, { author := "u1", username := "ann", discriminator := "0001",
                        timestamp := "7", content := ['y', 'o'] })] }

/-- State after posting `"yo"` to `feed2State`: the message is stored and
the feed registry is untouched, broken websocket included. -/
def c4StAfter : ServerState :=
  { feed2State with db := { feed2State.db with chats := [{ chatDoc1 with
      message_history := some [{ author := "u1", content := ['y', 'o'], timestamp := "7" }] }] } }

/-- State after the owner Ann removes herself from `c1`: the chat's
`members` no longer contain its `owner`. -/
def c5OwnerGone : ServerState :=
  { baseState with db :=
      { users := [{ annDoc with chats := some [] }, bobDoc],
        chats := [{ chatDoc1 with members := ["u2"] }] } }

/-- State after `create_chat baseState "New" "k1" "c9"`. -/
def c5Created : ServerState :=
  { baseState with db :=
      { users := [{ annDoc with chats := some ["c1", "c9"] }, bobDoc],
        chats := [chatDoc1,
          { id := "c9", name := "New", owner := "u1", members := ["u1"],
            message_history := some [] }] } }

/-- State after Ann invites Cad into `c1` from `triState`. -/
def c5Added : ServerState :=
  { triState with db :=
      { users := [annDoc, bobDoc, { cadDoc with chats := some ["c1"] }],
        chats := [{ chatDoc1 with members := ["u1", "u2", "u3"] }] } }

/-- State after Ann removes Bob from `c1` in `baseState`. -/
def c5Removed : ServerState :=
  { baseState with db :=
      { users := [annDoc, { bobDoc with chats := some [] }],
        chats := [{ chatDoc1 with members := ["u1"] }] } }

/-- `baseState` with Ann's first feed connection, websocket 5, on `c1`. -/
def c9St : ServerState :=
  { baseState with feeds := [("c1", [("u1", 5)])] }

/-- `c9St` after Ann authenticates a second websocket, 9, on `c1`: the
registry entry for `("c1", "u1")` now holds 9 alone. -/
def c9StAfter : ServerState :=
  { baseState with feeds := [("c1", [("u1", 9)])] }

/-- Outcome of posting `"hi"` in `c9StAfter`: only websocket 9 is served. -/
def c9Out : MsgOut :=
  { error := "",
    delivered := [(9, { author := "u1", username := "ann", discriminator := "0001",
                        timestamp := "0", content := ['h', 'i'] })] }

/-- State after that post: the message is stored, the registry unchanged. -/
def c9Post : ServerState :=
  { c9StAfter with db := { c9StAfter.db with chats := [{ chatDoc1 with
      message_history := some [{ author := "u1", content := ['h', 'i'], timestamp := "0" }] }] } }

/-! ### C1 — message-content validation in `/msg` -/

set_option maxRecDepth 20000 in
/-- C1 counterexample: the claim says any content whose trimmed length is
exactly 500 succeeds, but `/msg` tests `len(content) > 500` on the *raw*
content (main.py:285).  501 raw characters whose stripped form has exactly
500 characters are rejected with `IllegalMessageContent`. -/
theorem msg_trimmed500_rejected :
    (pyStrip (List.replicate 500 'a' ++ [' '])).length = 500 ∧
    msg baseState "c1" "k1" "0" (List.replicate 500 'a' ++ [' ']) (fun _ => false) =
      .ok ({ error := "IllegalMessageContent", delivered := [] }, baseState) := by
  constructor
  · rfl
  · rfl

/-- C1 (amended): for a `/msg` call by a member of an existing chat, the
call fails `IllegalMessageContent` exactly when the *untrimmed* content
exceeds 500 characters or the trimmed content is empty.  Trimmed length
501 still fails (the raw length is then at least 501) and whitespace-only
content still fails, but trimmed length exactly 500 succeeds only when
the raw length is also at most 500. -/
theorem msg_illegal_content_iff (st : ServerState) (chat_id apikey ts : String)
    (content : List Char) (broken : Nat → Bool) (author : String) (chat : ChatDoc)
    (hk : dictLookup apikey st.apikeys = some author)
    (hc : st.db.chats.find? (fun c => c.id == chat_id) = some chat)
    (hm : author ∈ chat.members) :
    (msg st chat_id apikey ts content broken =
        .ok ({ error := "IllegalMessageContent", delivered := [] }, st))
      ↔ (content.length > 500 ∨ pyStrip content = []) := by
  simp only [msg, hk, hc]
  rw [if_neg (not_not_intro hm)]
  by_cases hcond : content.length > 500 ∨ pyStrip content = []
  · simp [hcond]
  · simp [hcond]

/-- Witness for `msg_illegal_content_iff`: whitespace-only content in
`baseState` is rejected. -/
theorem msg_illegal_content_iff_witness :
    msg baseState "c1" "k1" "0" [' ', '\t'] (fun _ => false) =
      .ok ({ error := "IllegalMessageContent", delivered := [] }, baseState) :=
  (msg_illegal_content_iff baseState "c1" "k1" "0" [' ', '\t'] (fun _ => false) "u1" chatDoc1
    rfl rfl (by decide)).mpr (by decide)

/-! ### C2 — `/msg` with an unknown session token or chat id -/

/-- C2 counterexample: an unknown API key makes `/msg` raise an uncaught
`KeyError` (`apikeys[...]`, main.py:279) and an unknown chat id makes it
raise an uncaught `TypeError` (`None["members"]`, main.py:283).  Neither
failure is the structured result (`InvalidSession` / `ChatNotFound`) the
claim requires; the handler crashes instead of answering. -/
theorem msg_unknown_token_or_chat_raises :
    msg { baseState with apikeys := [] } "c1" "badkey" "0" ['h', 'i'] (fun _ => false) =
      .error .keyError ∧
    msg baseState "nochat" "k1" "0" ['h', 'i'] (fun _ => false) = .error .typeError :=
  ⟨rfl, rfl⟩

/-- C2 (amended): a `/msg` call whose session token is absent from the
session registry raises an unhandled `KeyError`, and a call with a valid
token but a nonexistent chat id raises an unhandled `TypeError`; neither
failure is reported as a structured error result. -/
theorem msg_missing_session_and_chat (st : ServerState) (chat_id apikey ts : String)
    (content : List Char) (broken : Nat → Bool) :
    (dictLookup apikey st.apikeys = none →
      msg st chat_id apikey ts content broken = .error .keyError) ∧
    (∀ author, dictLookup apikey st.apikeys = some author →
      st.db.chats.find? (fun c => c.id == chat_id) = none →
      msg st chat_id apikey ts content broken = .error .typeError) := by
  constructor
  · intro h
    simp [msg, h]
  · intro author ha hc
    simp [msg, ha, hc]

/-- Witness for `msg_missing_session_and_chat` at concrete states. -/
theorem msg_missing_session_and_chat_witness :
    msg { baseState with apikeys := [] } "c1" "k" "0" ['h'] (fun _ => false) =
      .error .keyError ∧
    msg baseState "zz" "k1" "0" ['h'] (fun _ => false) = .error .typeError :=
  ⟨(msg_missing_session_and_chat { baseState with apikeys := [] } "c1" "k" "0" ['h']
      (fun _ => false)).1 rfl,
   (msg_missing_session_and_chat baseState "zz" "k1" "0" ['h'] (fun _ => false)).2 "u1" rfl rfl⟩

/-! ### C7 — `/chatfetch` and the `limit` header -/

/-- C7 (code bug): `/chatfetch` documents an optional `limit` header
defaulting to 50, but the handler slices `message_history[:limit]` with
the raw header *string* (main.py:417,447), which raises `TypeError` for
every caller-supplied limit.  Only the default integer 50 works, and a
missing chat still answers `ChatNotFound`. -/
theorem chatfetch_limit_header_crash :
    chatfetch fetchState "c1" (some "10") = .error .typeError ∧
    chatfetch fetchState "c1" none =
      .ok { error := "",
            messages := [{ author := "u1", content := ['h', 'i'], timestamp := "3" }] } ∧
    chatfetch baseState "zz" none = .ok { error := "ChatNotFound", messages := [] } :=
  ⟨rfl, rfl, rfl⟩

/-! ### C8 — `/add_to_chat` error precedence -/

/-- C8 counterexample: in `baseState`, Bob (`k2` → `u2`) is a member but
not the owner, and the invitee `u2` is already in `members`.  The claim
says such an invite fails `UserAlreadyInChat`, but the permission test of
main.py:179 runs first and the call fails `NoInvitePerms`. -/
theorem invite_already_present_nonowner :
    add_to_chat baseState "k2" "u2" "c1" = .ok ("NoInvitePerms", baseState) ∧
    ("NoInvitePerms" : String) ≠ "UserAlreadyInChat" :=
  ⟨rfl, by decide⟩

/-- C8 (amended): on an existing chat the `/add_to_chat` errors are
checked in order: an actor who is not a member *or* not the owner fails
`NoInvitePerms` (so a member non-owner does); only an owner's invite of an
already-present invitee fails `UserAlreadyInChat`; only an owner's invite
of an absent, nonexistent invitee fails `UserNotFound`; and on success the
invitee is appended to the chat's `members` and the chat to the invitee's
`chats`. -/
theorem add_to_chat_precedence (st : ServerState) (k invitee chat_id : String)
    (inviter : String) (chatdata : ChatDoc)
    (hk : dictLookup k st.apikeys = some inviter)
    (hc : st.db.chats.find? (fun c => c.id == chat_id) = some chatdata) :
    ((inviter ∉ chatdata.members ∨ inviter ≠ chatdata.owner) →
      add_to_chat st k invitee chat_id = .ok ("NoInvitePerms", st)) ∧
    (inviter ∈ chatdata.members → inviter = chatdata.owner → invitee ∈ chatdata.members →
      add_to_chat st k invitee chat_id = .ok ("UserAlreadyInChat", st)) ∧
    (inviter ∈ chatdata.members → inviter = chatdata.owner → invitee ∉ chatdata.members →
      st.db.users.find? (fun u => u.id == invitee) = none →
      add_to_chat st k invitee chat_id = .ok ("UserNotFound", st)) ∧
    (∀ userdata, inviter ∈ chatdata.members → inviter = chatdata.owner →
      invitee ∉ chatdata.members →
      st.db.users.find? (fun u => u.id == invitee) = some userdata →
      ∀ r st', add_to_chat st k invitee chat_id = .ok (r, st') →
        r = "" ∧
        st'.db.chats.find? (fun c => c.id == chat_id) =
          some { chatdata with members := chatdata.members ++ [invitee] } ∧
        st'.db.users.find? (fun u => u.id == invitee) =
          some { userdata with chats := some (userdata.chatList ++ [chat_id]) }) := by
  refine ⟨?_, ?_, ?_, ?_⟩
  · intro hperm
    simp [add_to_chat, hk, hc, hperm]
  · intro h1 h2 h3
    simp [add_to_chat, hk, hc, h1, h2, h3]
    exact h2 ▸ h1
  · intro h1 h2 h3 hu
    simp [add_to_chat, hk, hc, h1, h2, h3, hu]
    exact h2 ▸ h1
  · intro userdata h1 h2 h3 hu r st' h
    simp only [add_to_chat, hk, hc, hu] at h
    rw [if_neg (by push_neg; exact ⟨h1, h2⟩), if_neg h3] at h
    simp only [Except.ok.injEq, Prod.mk.injEq] at h
    obtain ⟨hr, hst⟩ := h
    subst hr
    subst hst
    refine ⟨rfl, ?_, ?_⟩
    · rw [find?_updateFirst (fun c => c.id == chat_id)
        (fun c => { c with members := chatdata.members ++ [invitee] }) st.db.chats
        (fun a => rfl), hc]
      rfl
    · rw [find?_updateFirst (fun u => u.id == invitee)
        (fun u => { u with chats := some (userdata.chatList ++ [chat_id]) }) st.db.users
        (fun a => rfl), hu]
      rfl

/-- Witness for `add_to_chat_precedence`, exercising all four branches on
concrete states: Bob inviting is `NoInvitePerms`, Ann re-inviting Bob is
`UserAlreadyInChat`, Ann inviting an unknown id is `UserNotFound`, and
Ann inviting Cad succeeds and updates both documents. -/
theorem add_to_chat_precedence_witness :
    add_to_chat baseState "k2" "u2" "c1" = .ok ("NoInvitePerms", baseState) ∧
    add_to_chat baseState "k1" "u2" "c1" = .ok ("UserAlreadyInChat", baseState) ∧
    add_to_chat baseState "k1" "u9" "c1" = .ok ("UserNotFound", baseState) ∧
    (∀ r st', add_to_chat triState "k1" "u3" "c1" = .ok (r, st') →
      r = "" ∧
      st'.db.chats.find? (fun c => c.id == "c1") =
        some { chatDoc1 with members := chatDoc1.members ++ ["u3"] } ∧
      st'.db.users.find? (fun u => u.id == "u3") =
        some { cadDoc with chats := some (cadDoc.chatList ++ ["c1"]) }) := by
  refine ⟨?_, ?_, ?_, ?_⟩
  · exact (add_to_chat_precedence baseState "k2" "u2" "c1" "u2" chatDoc1 rfl rfl).1
      (by decide)
  · exact (add_to_chat_precedence baseState "k1" "u2" "c1" "u1" chatDoc1 rfl rfl).2.1
      (by decide) (by decide) (by decide)
  · exact (add_to_chat_precedence baseState "k1" "u9" "c1" "u1" chatDoc1 rfl rfl).2.2.1
      (by decide) (by decide) (by decide) rfl
  · exact (add_to_chat_precedence triState "k1" "u3" "c1" "u1" chatDoc1 rfl rfl).2.2.2
      cadDoc (by decide) (by decide) (by decide) rfl

/-! ### C10 — `/register_user` error precedence -/

/-- C10: when several validation failures apply to one `/register_user`
request, exactly one error code is returned, and the checks that run
later in the handler override the earlier ones: `InvalidChars` (the
character loop) overrides `UsernameTaken` (the availability scan), which
overrides `TooLong` and `UsernameRequired` (the initial `if`/`elif`); and
whenever an error is returned, no user document is inserted. -/
theorem register_user_precedence (db : DB) (username discriminator pswd : String)
    (display_name : Option String) (newId : String) :
    (register_user db username discriminator pswd display_name newId).1 =
      (if username.toList.any (fun c => !allowed_chars.contains c) then
        .failure "InvalidChars"
       else if !is_user_available db.users (username ++ "#" ++ discriminator) newId then
        .failure "UsernameTaken"
       else if username.length > 20 ∨ displayTooLong display_name then
        .failure "TooLong"
       else if username = "" then
        .failure "UsernameRequired"
       else .success newId (username ++ "#" ++ discriminator)) ∧
    (∀ code,
      (register_user db username discriminator pswd display_name newId).1 = .failure code →
      (register_user db username discriminator pswd display_name newId).2 = db) := by
  constructor
  · simp only [register_user]
    split_ifs <;> simp_all
  · intro code h
    simp only [register_user] at h ⊢
    generalize hgen :
      (if (username.toList.any fun c => !allowed_chars.contains c) = true then "InvalidChars"
       else if (!is_user_available db.users (username ++ "#" ++ discriminator) newId) = true
         then "UsernameTaken"
       else if username.length > 20 ∨ displayTooLong display_name = true then "TooLong"
       else if username = "" then "UsernameRequired" else "") = E at h ⊢
    by_cases hE : E = ""
    · subst hE
      simp at h
    · rw [if_pos hE]

/-- Witness for `register_user_precedence`: registering the handle
`" #0009"` over `regDb` is simultaneously taken and made of a forbidden
character; the result is `InvalidChars` alone, with no insertion. -/
theorem register_user_precedence_witness :
    (register_user regDb " " "0009" "pw" none "u9").1 = .failure "InvalidChars" ∧
    (register_user regDb " " "0009" "pw" none "u9").2 = regDb :=
  ⟨(register_user_precedence regDb " " "0009" "pw" none "u9").1.trans (by decide),
   (register_user_precedence regDb " " "0009" "pw" none "u9").2 "InvalidChars"
     ((register_user_precedence regDb " " "0009" "pw" none "u9").1.trans (by decide))⟩

/-! ### C3 — stored content versus broadcast content -/

/-- C3 counterexample: posting `" hi "` stores the trimmed `"hi"`
(main.py:292) but the `livemsg` frame pushed to Ann's websocket carries
the raw `" hi "` (main.py:307), so the frame does not carry the stored
message content as the claim says. -/
theorem livemsg_frame_not_trimmed :
    msg feedState "c1" "k1" "5" [' ', 'h', 'i', ' '] (fun _ => false) = .ok (c3Out, c3St) ∧
    c3Out.delivered.map (fun p => p.2.content) = [[' ', 'h', 'i', ' ']] ∧
    ((c3St.db.chats.map fun c => c.message_history)) =
      [some [{ author := "u1", content := ['h', 'i'], timestamp := "5" }]] ∧
    ([' ', 'h', 'i', ' '] : List Char) ≠ ['h', 'i'] :=
  ⟨rfl, rfl, rfl, by decide⟩

/-- C3 (amended): for every successful `/msg` call the message appended to
the chat's log has content equal to the *trimmed* input, while every
`livemsg` frame pushed to a registered connection carries the *raw*
input; the two agree only when the input carries no leading or trailing
whitespace. -/
theorem msg_stores_trimmed_frames_raw (st : ServerState) (chat_id apikey ts : String)
    (content : List Char) (broken : Nat → Bool) (author : String) (chat : ChatDoc)
    (hk : dictLookup apikey st.apikeys = some author)
    (hc : st.db.chats.find? (fun c => c.id == chat_id) = some chat)
    (hm : author ∈ chat.members)
    (hok : ¬(content.length > 500 ∨ pyStrip content = [])) :
    ∀ out st', msg st chat_id apikey ts content broken = .ok (out, st') →
      out.error = "" ∧
      st'.db.chats.find? (fun c => c.id == chat_id) =
        some { chat with message_history := some (chat.message_history.getD [] ++
          [{ author := author, content := pyStrip content, timestamp := ts }]) } ∧
      ∀ p ∈ out.delivered, p.2.content = content := by
  intro out st' h
  simp only [msg, hk, hc] at h
  rw [if_neg (not_not_intro hm), if_neg hok] at h
  simp only [Except.ok.injEq, Prod.mk.injEq] at h
  obtain ⟨h1, h2⟩ := h
  subst h1
  subst h2
  refine ⟨rfl, ?_, ?_⟩
  · rw [find?_updateFirst (fun c => c.id == chat_id)
      (fun c => { c with message_history := some (chat.message_history.getD [] ++
        [{ author := author, content := pyStrip content, timestamp := ts }]) }) st.db.chats
      (fun a => rfl), hc]
    rfl
  · intro p hp
    rcases List.mem_filterMap.mp hp with ⟨cn, hcn, hg⟩
    cases hfind : st.db.users.find? (fun u => u.id == author) with
    | none =>
      simp only [hfind] at hg
      exact Option.noConfusion hg
    | some udata =>
      simp only [hfind] at hg
      by_cases hb : broken cn.2
      · rw [if_pos hb] at hg
        exact Option.noConfusion hg
      · rw [if_neg hb] at hg
        injection hg with hg'
        subst hg'
        rfl

/-- Witness for `msg_stores_trimmed_frames_raw`: posting `" hi "` to
`feedState` stores `"hi"` while the frame delivered to websocket 7
carries `" hi "`. -/
theorem msg_stores_trimmed_frames_raw_witness :
    c3Out.error = "" ∧
    c3St.db.chats.find? (fun c => c.id == "c1") =
      some { chatDoc1 with message_history := some (chatDoc1.message_history.getD [] ++
        [{ author := "u1", content := pyStrip [' ', 'h', 'i', ' '], timestamp := "5" }]) } ∧
    ((7, { author := "u1", username := "ann", discriminator := "0001", timestamp := "5",
           content := [' ', 'h', 'i', ' '] }) : Nat × Frame).2.content = [' ', 'h', 'i', ' '] := by
  obtain ⟨h1, h2, h3⟩ := msg_stores_trimmed_frames_raw feedState "c1" "k1" "5"
    [' ', 'h', 'i', ' '] (fun _ => false) "u1" chatDoc1 rfl rfl (by decide) (by decide)
    c3Out c3St rfl
  exact ⟨h1, h2, h3 _ (by decide)⟩

/-! ### C4 — fan-out failure isolation and (non-)eviction -/

/-- C4 counterexample: with Ann's websocket 1 broken and Bob's websocket 2
healthy on `c1`, posting succeeds and websocket 2 is still served, but the
`except` block of main.py:310 only prints: websocket 1 stays in
`open_feed_connections`, so the failed push does *not* evict the
connection as the claim says. -/
theorem failed_push_not_evicted :
    msg feed2State "c1" "k1" "7" ['y', 'o'] (fun n => n == 1) = .ok (c4Out, c4StAfter) ∧
    dictLookup "c1" c4StAfter.feeds = some [("u1", 1), ("u2", 2)] ∧
    c4Out.error = "" :=
  ⟨rfl, rfl, rfl⟩

/-- C4 (amended): during fan-out of one ingested message, a failed push to
one registered connection is swallowed (the connection stays registered —
no eviction happens), does not prevent delivery to every other registered
connection of the chat, and does not make the `/msg` call fail. -/
theorem msg_fanout_isolation (st : ServerState) (chat_id apikey ts : String)
    (content : List Char) (broken : Nat → Bool) (author : String) (chat : ChatDoc)
    (udata : UserDoc)
    (hk : dictLookup apikey st.apikeys = some author)
    (hc : st.db.chats.find? (fun c => c.id == chat_id) = some chat)
    (hm : author ∈ chat.members)
    (hok : ¬(content.length > 500 ∨ pyStrip content = []))
    (hu : st.db.users.find? (fun u => u.id == author) = some udata) :
    ∀ out st', msg st chat_id apikey ts content broken = .ok (out, st') →
      out.error = "" ∧
      st'.feeds = st.feeds ∧
      ∀ q ∈ (dictLookup chat_id st.feeds).getD [], broken q.2 = false →
        (q.2, { author := author, username := udata.username,
                discriminator := udata.discriminator, timestamp := ts,
                content := content }) ∈ out.delivered := by
  intro out st' h
  simp only [msg, hk, hc] at h
  rw [if_neg (not_not_intro hm), if_neg hok] at h
  simp only [Except.ok.injEq, Prod.mk.injEq] at h
  obtain ⟨h1, h2⟩ := h
  subst h1
  subst h2
  refine ⟨rfl, rfl, ?_⟩
  intro q hq hbq
  refine List.mem_filterMap.mpr ⟨q, hq, ?_⟩
  simp only [hu]
  rw [if_neg (by simp [hbq])]

/-- Witness for `msg_fanout_isolation`: in `feed2State` with websocket 1
broken, Bob's websocket 2 still receives the frame and the call
succeeds. -/
theorem msg_fanout_isolation_witness :
    c4Out.error = "" ∧
    c4StAfter.feeds = feed2State.feeds ∧
    (((2 : Nat), ({ author := "u1", username := "ann", discriminator := "0001",
                    timestamp := "7", content := ['y', 'o'] } : Frame))) ∈ c4Out.delivered := by
  obtain ⟨h1, h2, h3⟩ := msg_fanout_isolation feed2State "c1" "k1" "7" ['y', 'o']
    (fun n => n == 1) "u1" chatDoc1 annDoc rfl rfl (by decide) (by decide) rfl
    c4Out c4StAfter rfl
  exact ⟨h1, h2, h3 ("u2", 2) (by decide) rfl⟩

/-! ### C5 — the owner-is-a-member invariant -/

/-- C5 counterexample: the owner Ann removing herself from `c1` succeeds
(main.py:218 only checks membership and that the remover is the owner),
and afterwards the chat's `owner` is not in its `members`: `remove_member`
does not preserve the invariant the claim states. -/
theorem remove_owner_violates_invariant :
    remove_from_chat baseState "k1" "u1" "c1" = .ok ("", c5OwnerGone) ∧
    ownerInMembers baseState.db ∧
    ¬ ownerInMembers c5OwnerGone.db :=
  ⟨rfl, by decide, by decide⟩

/-- C5 (amended): `create_chat` establishes `owner ∈ members` for the new
chat and preserves it for existing chats, `add_to_chat` preserves it, and
`remove_from_chat` preserves it provided the removed user is not the
owner of the targeted chat; removing the owner breaks it. -/
theorem owner_in_members_preserved :
    (∀ st name k newId r st', create_chat st name k newId = .ok (r, st') →
      ownerInMembers st.db → ownerInMembers st'.db) ∧
    (∀ st name k newId r st', create_chat st name k newId = .ok (r, st') →
      ∃ c, st'.db.chats.getLast? = some c ∧ c.id = newId ∧ c.owner ∈ c.members) ∧
    (∀ st k invitee chat_id r st', add_to_chat st k invitee chat_id = .ok (r, st') →
      ownerInMembers st.db → ownerInMembers st'.db) ∧
    (∀ st k removee chat_id r st', remove_from_chat st k removee chat_id = .ok (r, st') →
      (∀ c ∈ st.db.chats, c.id = chat_id → removee ≠ c.owner) →
      ownerInMembers st.db → ownerInMembers st'.db) := by
  refine ⟨?_, ?_, ?_, ?_⟩
  · intro st name k newId r st' h hinv
    simp only [create_chat] at h
    split at h
    · exact Except.noConfusion h
    · split at h
      · exact Except.noConfusion h
      · simp only [Except.ok.injEq, Prod.mk.injEq] at h
        obtain ⟨-, h2⟩ := h
        subst h2
        intro c hc
        rcases List.mem_append.mp hc with hcl | hcr
        · exact hinv c hcl
        · rw [List.mem_singleton] at hcr
          subst hcr
          exact List.mem_singleton_self _
  · intro st name k newId r st' h
    simp only [create_chat] at h
    split at h
    · exact Except.noConfusion h
    · split at h
      · exact Except.noConfusion h
      · simp only [Except.ok.injEq, Prod.mk.injEq] at h
        obtain ⟨-, h2⟩ := h
        subst h2
        exact ⟨_, List.getLast?_concat _, rfl, List.mem_singleton_self _⟩
  · intro st k invitee chat_id r st' h hinv
    simp only [add_to_chat] at h
    split at h
    · exact Except.noConfusion h
    · split at h
      · exact Except.noConfusion h
      · rename_i chatdata heqc
        split at h
        · simp only [Except.ok.injEq, Prod.mk.injEq] at h
          obtain ⟨-, h2⟩ := h
          subst h2
          exact hinv
        · split at h
          · simp only [Except.ok.injEq, Prod.mk.injEq] at h
            obtain ⟨-, h2⟩ := h
            subst h2
            exact hinv
          · split at h
            · simp only [Except.ok.injEq, Prod.mk.injEq] at h
              obtain ⟨-, h2⟩ := h
              subst h2
              exact hinv
            · simp only [Except.ok.injEq, Prod.mk.injEq] at h
              obtain ⟨-, h2⟩ := h
              subst h2
              intro c hc
              rcases mem_updateFirst _ _ _ _ hc with hcl | ⟨a, ha, rfl⟩
              · exact hinv c hcl
              · rw [heqc] at ha
                injection ha with ha'
                subst ha'
                exact List.mem_append.mpr
                  (Or.inl (hinv chatdata (List.mem_of_find?_eq_some heqc)))
  · intro st k removee chat_id r st' h hno hinv
    simp only [remove_from_chat] at h
    split at h
    · exact Except.noConfusion h
    · split at h
      · exact Except.noConfusion h
      · split at h
        · exact Except.noConfusion h
        · split at h
          · simp only [Except.ok.injEq, Prod.mk.injEq] at h
            obtain ⟨-, h2⟩ := h
            subst h2
            exact hinv
          · split at h
            · exact Except.noConfusion h
            · rename_i chatdata heqc
              split at h
              · simp only [Except.ok.injEq, Prod.mk.injEq] at h
                obtain ⟨-, h2⟩ := h
                subst h2
                exact hinv
              · split at h
                · simp only [Except.ok.injEq, Prod.mk.injEq] at h
                  obtain ⟨-, h2⟩ := h
                  subst h2
                  exact hinv
                · simp only [Except.ok.injEq, Prod.mk.injEq] at h
                  obtain ⟨-, h2⟩ := h
                  subst h2
                  intro c hc
                  rcases mem_updateFirst _ _ _ _ hc with hcl | ⟨a, ha, rfl⟩
                  · exact hinv c hcl
                  · rw [heqc] at ha
                    injection ha with ha'
                    subst ha'
                    obtain ⟨hmem, hid⟩ :=
                      find?_key_facts (fun c => c.id) chat_id st.db.chats chatdata heqc
                    exact (List.mem_erase_of_ne
                      (Ne.symm (hno chatdata hmem hid))).mpr (hinv chatdata hmem)

/-- Witness for `owner_in_members_preserved` on concrete operations over
`baseState`/`triState`: creating `c9`, inviting Cad, and removing the
non-owner Bob all leave every owner inside its chat's members. -/
theorem owner_in_members_preserved_witness :
    ownerInMembers c5Created.db ∧
    (∃ c, c5Created.db.chats.getLast? = some c ∧ c.id = "c9" ∧ c.owner ∈ c.members) ∧
    ownerInMembers c5Added.db ∧
    ownerInMembers c5Removed.db :=
  ⟨owner_in_members_preserved.1 baseState "New" "k1" "c9" "c9" c5Created rfl (by decide),
   owner_in_members_preserved.2.1 baseState "New" "k1" "c9" "c9" c5Created rfl,
   owner_in_members_preserved.2.2.1 triState "k1" "u3" "c1" "" c5Added rfl (by decide),
   owner_in_members_preserved.2.2.2 baseState "k1" "u2" "c1" "" c5Removed rfl
     (by decide) (by decide)⟩

/-! ### C9 — re-registration of a feed connection -/

/-- Every successful delivery of a `/msg` fan-out goes to the websocket of
some entry of the chat's registry at call time. -/
theorem msg_delivered_from_registry (st : ServerState) (chat_id apikey ts : String)
    (content : List Char) (broken : Nat → Bool) (out : MsgOut) (st2 : ServerState)
    (h : msg st chat_id apikey ts content broken = .ok (out, st2)) :
    ∀ p ∈ out.delivered, ∃ cn ∈ (dictLookup chat_id st.feeds).getD [], p.1 = cn.2 := by
  intro p hp
  simp only [msg] at h
  split at h
  · exact Except.noConfusion h
  · rename_i author hka
    split at h
    · exact Except.noConfusion h
    · split at h
      · simp only [Except.ok.injEq, Prod.mk.injEq] at h
        obtain ⟨h1, -⟩ := h
        subst h1
        exact absurd hp (by simp)
      · split at h
        · simp only [Except.ok.injEq, Prod.mk.injEq] at h
          obtain ⟨h1, -⟩ := h
          subst h1
          exact absurd hp (by simp)
        · simp only [Except.ok.injEq, Prod.mk.injEq] at h
          obtain ⟨h1, -⟩ := h
          subst h1
          rcases List.mem_filterMap.mp hp with ⟨cn, hcn, hg⟩
          refine ⟨cn, hcn, ?_⟩
          cases hfu : st.db.users.find? (fun x => x.id == author) with
          | none =>
            simp only [hfu] at hg
            exact Option.noConfusion hg
          | some udata =>
            simp only [hfu] at hg
            by_cases hb : broken cn.2
            · rw [if_pos hb] at hg
              exact Option.noConfusion hg
            · rw [if_neg hb] at hg
              injection hg with hg'
              subst hg'
              rfl

/-- C9: when a second feed connection for the same user authenticates on
the same chat, the per-chat registry maps that user to the new websocket
only, keys stay duplicate-free (at most one connection per (chat, user)
pair), and a subsequent `/msg` fan-out on that chat delivers nothing to
the superseded websocket. -/
theorem feed_reregistration_supersedes (st st' : ServerState) (cid k u : String)
    (ws1 ws2 : Nat)
    (hk : dictLookup k st.apikeys = some u)
    (hreg : chatfeed_auth st cid k ws2 = .ok ("", st'))
    (hws : ws1 ≠ ws2)
    (hnk : (((dictLookup cid st.feeds).getD []).map Prod.fst).Nodup)
    (honly : ∀ p ∈ (dictLookup cid st.feeds).getD [], p.2 = ws1 → p.1 = u) :
    dictLookup u ((dictLookup cid st'.feeds).getD []) = some ws2 ∧
    (((dictLookup cid st'.feeds).getD []).map Prod.fst).Nodup ∧
    (∀ k2 ts content broken out st2,
      msg st' cid k2 ts content broken = .ok (out, st2) →
      ∀ p ∈ out.delivered, p.1 ≠ ws1) := by
  simp only [chatfeed_auth, hk] at hreg
  cases hc : st.db.chats.find? (fun c => c.id == cid) with
  | none =>
    simp only [hc] at hreg
    exact Except.noConfusion hreg
  | some chatdata =>
    simp only [hc] at hreg
    split at hreg
    · simp at hreg
    · simp only [Except.ok.injEq, Prod.mk.injEq] at hreg
      obtain ⟨-, h2⟩ := hreg
      subst h2
      refine ⟨?_, ?_, ?_⟩
      · show dictLookup u ((dictLookup cid (dictSet cid
          (dictSet u ws2 ((dictLookup cid st.feeds).getD [])) st.feeds)).getD []) = some ws2
        rw [dictLookup_dictSet_self]
        exact dictLookup_dictSet_self _ _ _
      · show (((dictLookup cid (dictSet cid
          (dictSet u ws2 ((dictLookup cid st.feeds).getD [])) st.feeds)).getD []).map
            Prod.fst).Nodup
        rw [dictLookup_dictSet_self]
        exact nodup_keys_dictSet _ _ _ hnk
      · intro k2 ts content broken out st2 hmsg p hp
        obtain ⟨cn, hcn, hp1⟩ := msg_delivered_from_registry _ cid k2 ts content broken
          out st2 hmsg p hp
        rw [show dictLookup cid (dictSet cid
            (dictSet u ws2 ((dictLookup cid st.feeds).getD [])) st.feeds) =
          some (dictSet u ws2 ((dictLookup cid st.feeds).getD []))
          from dictLookup_dictSet_self _ _ _] at hcn
        rcases mem_dictSet_nodup u ws2 ((dictLookup cid st.feeds).getD []) cn hnk hcn with
          hq | ⟨hmem, hne⟩
        · rw [hp1, hq]
          exact fun hh => hws hh.symm
        · rw [hp1]
          exact fun hh => hne (honly cn hmem hh)

/-- Witness for `feed_reregistration_supersedes`: after websocket 9
replaces websocket 5 for Ann on `c1`, the registry maps Ann to 9 with
duplicate-free keys, and the fan-out of a concrete post reaches 9, never
5. -/
theorem feed_reregistration_supersedes_witness :
    dictLookup "u1" ((dictLookup "c1" c9StAfter.feeds).getD []) = some 9 ∧
    (((dictLookup "c1" c9StAfter.feeds).getD []).map Prod.fst).Nodup ∧
    (9 : Nat) ≠ 5 := by
  obtain ⟨h1, h2, h3⟩ := feed_reregistration_supersedes c9St c9StAfter "c1" "k1" "u1" 5 9
    rfl rfl (by decide) (by decide) (by decide)
  refine ⟨h1, h2, ?_⟩
  exact h3 "k1" "0" ['h', 'i'] (fun _ => false) c9Out c9Post rfl
    (9, { author := "u1", username := "ann", discriminator := "0001",
          timestamp := "0", content := ['h', 'i'] }) (by decide)

/-! ### C6 — symmetric membership bookkeeping -/

theorem updateFirst_user_eq_map (f : UserDoc → UserDoc) (x : String) (l : List UserDoc)
    (h : (l.map (fun u : UserDoc => u.id)).Nodup) :
    updateFirst (fun u => u.id == x) f l = l.map (fun u => if u.id = x then f u else u) :=
  updateFirst_eq_map (fun u => u.id) f x l h

theorem updateFirst_chat_eq_map (f : ChatDoc → ChatDoc) (x : String) (l : List ChatDoc)
    (h : (l.map (fun c : ChatDoc => c.id)).Nodup) :
    updateFirst (fun c => c.id == x) f l = l.map (fun c => if c.id = x then f c else c) :=
  updateFirst_eq_map (fun c => c.id) f x l h

/-- `create_chat` preserves the symmetric-membership invariant, as long as
the generated chat id is fresh (uuid4 collisions are not modelled). -/
theorem membershipIff_create (st : ServerState) (name k newId r : String)
    (st' : ServerState) (hwf : DBWf st.db)
    (hfresh : newId ∉ st.db.chats.map (fun c : ChatDoc => c.id))
    (hfreshu : ∀ u ∈ st.db.users, newId ∉ u.chatList)
    (h : create_chat st name k newId = .ok (r, st')) :
    membershipIff st'.db := by
  obtain ⟨hnu, hnc, hud, hcd, hiff⟩ := hwf
  simp only [create_chat] at h
  split at h
  · exact Except.noConfusion h
  · split at h
    · exact Except.noConfusion h
    · rename_i scr1 ownerId hk1 scr2 userdata hqu
      simp only [Except.ok.injEq, Prod.mk.injEq] at h
      obtain ⟨-, h2⟩ := h
      subst h2
      obtain ⟨humem, huid⟩ :=
        find?_key_facts (fun x : UserDoc => x.id) ownerId st.db.users userdata hqu
      rw [show updateFirst (fun u => u.id == ownerId)
          (fun u => { u with chats := some (userdata.chatList ++ [newId]) }) st.db.users =
        st.db.users.map (fun u => if u.id = ownerId then
          { u with chats := some (userdata.chatList ++ [newId]) } else u)
        from updateFirst_user_eq_map _ ownerId st.db.users hnu]
      intro u' hu' c' hc'
      simp only [List.mem_map] at hu'
      obtain ⟨u, hu, rfl⟩ := hu'
      rcases List.mem_append.mp hc' with hcold | hcnew
      · by_cases hui : u.id = ownerId
        · rw [if_pos hui]
          have hueq : u = userdata :=
            nodup_key_eq (fun x : UserDoc => x.id) st.db.users hnu u userdata hu humem
              (by show u.id = userdata.id
                  rw [hui, huid])
          subst hueq
          have hcid : c'.id ≠ newId := fun hh => hfresh (hh ▸ List.mem_map_of_mem _ hcold)
          show c'.id ∈ u.chatList ++ [newId] ↔ u.id ∈ c'.members
          rw [List.mem_append, List.mem_singleton]
          simp only [hcid, or_false]
          exact hiff u hu c' hcold
        · rw [if_neg hui]
          exact hiff u hu c' hcold
      · rw [List.mem_singleton] at hcnew
        subst hcnew
        by_cases hui : u.id = ownerId
        · rw [if_pos hui]
          show newId ∈ userdata.chatList ++ [newId] ↔ u.id ∈ [ownerId]
          simp [hui]
        · rw [if_neg hui]
          show newId ∈ u.chatList ↔ u.id ∈ [ownerId]
          simp [hfreshu u hu, hui]

/-- `add_to_chat` preserves the symmetric-membership invariant. -/
theorem membershipIff_add (st : ServerState) (k invitee chat_id r : String)
    (st' : ServerState) (hwf : DBWf st.db)
    (h : add_to_chat st k invitee chat_id = .ok (r, st')) :
    membershipIff st'.db := by
  obtain ⟨hnu, hnc, hud, hcd, hiff⟩ := hwf
  simp only [add_to_chat] at h
  split at h
  · exact Except.noConfusion h
  · split at h
    · exact Except.noConfusion h
    · rename_i chatdata hqc
      split at h
      · simp only [Except.ok.injEq, Prod.mk.injEq] at h
        obtain ⟨-, h2⟩ := h
        subst h2
        exact hiff
      · split at h
        · simp only [Except.ok.injEq, Prod.mk.injEq] at h
          obtain ⟨-, h2⟩ := h
          subst h2
          exact hiff
        · split at h
          · simp only [Except.ok.injEq, Prod.mk.injEq] at h
            obtain ⟨-, h2⟩ := h
            subst h2
            exact hiff
          · rename_i userdata hqu
            simp only [Except.ok.injEq, Prod.mk.injEq] at h
            obtain ⟨-, h2⟩ := h
            subst h2
            obtain ⟨humem, huid⟩ :=
              find?_key_facts (fun x : UserDoc => x.id) invitee st.db.users userdata hqu
            obtain ⟨hcmem, hcid⟩ :=
              find?_key_facts (fun x : ChatDoc => x.id) chat_id st.db.chats chatdata hqc
            rw [show updateFirst (fun u => u.id == invitee)
                (fun u => { u with chats := some (userdata.chatList ++ [chat_id]) })
                st.db.users =
              st.db.users.map (fun u => if u.id = invitee then
                { u with chats := some (userdata.chatList ++ [chat_id]) } else u)
              from updateFirst_user_eq_map _ invitee st.db.users hnu,
              show updateFirst (fun c => c.id == chat_id)
                (fun c => { c with members := chatdata.members ++ [invitee] }) st.db.chats =
              st.db.chats.map (fun c => if c.id = chat_id then
                { c with members := chatdata.members ++ [invitee] } else c)
              from updateFirst_chat_eq_map _ chat_id st.db.chats hnc]
            intro u' hu' c' hc'
            simp only [List.mem_map] at hu' hc'
            obtain ⟨u, hu, rfl⟩ := hu'
            obtain ⟨c, hc, rfl⟩ := hc'
            by_cases hui : u.id = invitee <;> by_cases hci : c.id = chat_id
            · rw [if_pos hui, if_pos hci]
              have hueq : u = userdata :=
                nodup_key_eq (fun x : UserDoc => x.id) st.db.users hnu u userdata hu humem
                  (by show u.id = userdata.id
                      rw [hui, huid])
              have hceq : c = chatdata :=
                nodup_key_eq (fun x : ChatDoc => x.id) st.db.chats hnc c chatdata hc hcmem
                  (by show c.id = chatdata.id
                      rw [hci, hcid])
              subst hueq
              subst hceq
              show c.id ∈ u.chatList ++ [chat_id] ↔ u.id ∈ c.members ++ [invitee]
              simp [hci, hui]
            · rw [if_pos hui, if_neg hci]
              have hueq : u = userdata :=
                nodup_key_eq (fun x : UserDoc => x.id) st.db.users hnu u userdata hu humem
                  (by show u.id = userdata.id
                      rw [hui, huid])
              subst hueq
              show c.id ∈ u.chatList ++ [chat_id] ↔ u.id ∈ c.members
              rw [List.mem_append, List.mem_singleton]
              simp only [hci, or_false]
              exact hiff u hu c hc
            · rw [if_neg hui, if_pos hci]
              have hceq : c = chatdata :=
                nodup_key_eq (fun x : ChatDoc => x.id) st.db.chats hnc c chatdata hc hcmem
                  (by show c.id = chatdata.id
                      rw [hci, hcid])
              subst hceq
              show c.id ∈ u.chatList ↔ u.id ∈ c.members ++ [invitee]
              rw [List.mem_append, List.mem_singleton]
              simp only [hui, or_false]
              exact hiff u hu c hc
            · rw [if_neg hui, if_neg hci]
              exact hiff u hu c hc

/-- `remove_from_chat` preserves the symmetric-membership invariant. -/
theorem membershipIff_remove (st : ServerState) (k removee chat_id r : String)
    (st' : ServerState) (hwf : DBWf st.db)
    (h : remove_from_chat st k removee chat_id = .ok (r, st')) :
    membershipIff st'.db := by
  obtain ⟨hnu, hnc, hud, hcd, hiff⟩ := hwf
  simp only [remove_from_chat] at h
  split at h
  · exact Except.noConfusion h
  · split at h
    · exact Except.noConfusion h
    · rename_i userdata hqu
      split at h
      · exact Except.noConfusion h
      · rename_i uchats hch
        split at h
        · simp only [Except.ok.injEq, Prod.mk.injEq] at h
          obtain ⟨-, h2⟩ := h
          subst h2
          exact hiff
        · split at h
          · exact Except.noConfusion h
          · rename_i chatdata hqc
            split at h
            · simp only [Except.ok.injEq, Prod.mk.injEq] at h
              obtain ⟨-, h2⟩ := h
              subst h2
              exact hiff
            · split at h
              · simp only [Except.ok.injEq, Prod.mk.injEq] at h
                obtain ⟨-, h2⟩ := h
                subst h2
                exact hiff
              · simp only [Except.ok.injEq, Prod.mk.injEq] at h
                obtain ⟨-, h2⟩ := h
                subst h2
                obtain ⟨humem, huid⟩ :=
                  find?_key_facts (fun x : UserDoc => x.id) removee st.db.users userdata hqu
                obtain ⟨hcmem, hcid⟩ :=
                  find?_key_facts (fun x : ChatDoc => x.id) chat_id st.db.chats chatdata hqc
                have hcl : userdata.chatList = uchats := by
                  simp [UserDoc.chatList, hch]
                have hun : uchats.Nodup := hcl ▸ hud userdata humem
                have hcn : chatdata.members.Nodup := hcd chatdata hcmem
                rw [show updateFirst (fun u => u.id == removee)
                    (fun u => { u with chats := some (uchats.erase chat_id) }) st.db.users =
                  st.db.users.map (fun u => if u.id = removee then
                    { u with chats := some (uchats.erase chat_id) } else u)
                  from updateFirst_user_eq_map _ removee st.db.users hnu,
                  show updateFirst (fun c => c.id == chat_id)
                    (fun c => { c with members := chatdata.members.erase removee })
                    st.db.chats =
                  st.db.chats.map (fun c => if c.id = chat_id then
                    { c with members := chatdata.members.erase removee } else c)
                  from updateFirst_chat_eq_map _ chat_id st.db.chats hnc]
                intro u' hu' c' hc'
                simp only [List.mem_map] at hu' hc'
                obtain ⟨u, hu, rfl⟩ := hu'
                obtain ⟨c, hc, rfl⟩ := hc'
                by_cases hui : u.id = removee <;> by_cases hci : c.id = chat_id
                · rw [if_pos hui, if_pos hci]
                  have hceq : c = chatdata :=
                    nodup_key_eq (fun x : ChatDoc => x.id) st.db.chats hnc c chatdata hc hcmem
                      (by show c.id = chatdata.id
                          rw [hci, hcid])
                  subst hceq
                  show c.id ∈ uchats.erase chat_id ↔ u.id ∈ c.members.erase removee
                  rw [hun.mem_erase_iff, hcn.mem_erase_iff]
                  simp [hci, hui]
                · rw [if_pos hui, if_neg hci]
                  have hueq : u = userdata :=
                    nodup_key_eq (fun x : UserDoc => x.id) st.db.users hnu u userdata hu humem
                      (by show u.id = userdata.id
                          rw [hui, huid])
                  subst hueq
                  show c.id ∈ uchats.erase chat_id ↔ u.id ∈ c.members
                  rw [hun.mem_erase_iff]
                  simp only [hci, not_false_iff, true_and, ne_eq]
                  rw [← hcl]
                  exact hiff u hu c hc
                · rw [if_neg hui, if_pos hci]
                  have hceq : c = chatdata :=
                    nodup_key_eq (fun x : ChatDoc => x.id) st.db.chats hnc c chatdata hc hcmem
                      (by show c.id = chatdata.id
                          rw [hci, hcid])
                  subst hceq
                  show c.id ∈ u.chatList ↔ u.id ∈ c.members.erase removee
                  rw [hcn.mem_erase_iff]
                  simp only [hui, not_false_iff, true_and, ne_eq]
                  exact hiff u hu c hc
                · rw [if_neg hui, if_neg hci]
                  exact hiff u hu c hc

/-- C6: `chat_id ∈ user.memberships ⇔ user_id ∈ chat.members` is preserved
by `create_chat` (granted a fresh uuid), `add_to_chat` and
`remove_from_chat`, from any well-formed database (unique document ids,
duplicate-free membership lists, invariant holding before the call). -/
theorem membership_iff_preserved :
    (∀ st name k newId r st', DBWf st.db →
      newId ∉ st.db.chats.map (fun c : ChatDoc => c.id) →
      (∀ u ∈ st.db.users, newId ∉ u.chatList) →
      create_chat st name k newId = .ok (r, st') → membershipIff st'.db) ∧
    (∀ st k invitee chat_id r st', DBWf st.db →
      add_to_chat st k invitee chat_id = .ok (r, st') → membershipIff st'.db) ∧
    (∀ st k removee chat_id r st', DBWf st.db →
      remove_from_chat st k removee chat_id = .ok (r, st') → membershipIff st'.db) :=
  ⟨fun st name k newId r st' hwf h1 h2 h =>
      membershipIff_create st name k newId r st' hwf h1 h2 h,
   fun st k invitee chat_id r st' hwf h =>
      membershipIff_add st k invitee chat_id r st' hwf h,
   fun st k removee chat_id r st' hwf h =>
      membershipIff_remove st k removee chat_id r st' hwf h⟩

/-- Witness for `membership_iff_preserved` on concrete operations:
creating `c9`, inviting Cad, and removing Bob all keep user `chats` and
chat `members` synchronised. -/
theorem membership_iff_preserved_witness :
    membershipIff c5Created.db ∧ membershipIff c5Added.db ∧ membershipIff c5Removed.db :=
  ⟨membership_iff_preserved.1 baseState "New" "k1" "c9" "c9" c5Created (by decide)
      (by decide) (by decide) rfl,
   membership_iff_preserved.2.1 triState "k1" "u3" "c1" "" c5Added (by decide) rfl,
   membership_iff_preserved.2.2 baseState "k1" "u2" "c1" "" c5Removed (by decide) rfl⟩

end Peer
